import Mathlib

/- Verification of the DET embedded-controller tool.

   Shallow embedding of the transaction engine (ecio.txrx), the in-process
   EC simulator (ecsim.EcSimulator) and the SMBIOS field codec
   (modules/smbios.py).  Bytes are Nat values (masked with % 256 exactly
   where the source masks with & 0xFF), Python dicts are insertion-ordered
   association lists, Python exceptions are Except results, and wall-clock
   time in the drain loop is an explicit rational-number parameter. -/

namespace DET

/-- Association-list model of a Python dict: lookup, `d.get(k)`. -/
def dictGet {κ α : Type} [DecidableEq κ] (k : κ) : List (κ × α) → Option α
  | [] => none
  | (k', v') :: rest => if k' = k then some v' else dictGet k rest

/-- Association-list model of a Python dict: assignment `d[k] = v`
(overwrites in place, or appends at the end for a new key, preserving
Python's insertion order). -/
def dictSet {κ α : Type} [DecidableEq κ] (k : κ) (v : α) : List (κ × α) → List (κ × α)
  | [] => [(k, v)]
  | (k', v') :: rest => if k' = k then (k', v) :: rest else (k', v') :: dictSet k v rest

/-- Field descriptor from modules/smbios.py (`FieldDef`). -/
structure FieldDef where
  label : String
  length : Nat
  write_cmd : Nat
  write_sub : Nat
  read_cmd : Nat
  read_sub : Nat
  encoding : String
  deriving DecidableEq

/-- Value of one hex digit character (string.hexdigits membership). -/
def hexVal (c : Char) : Option Nat :=
  if '0' ≤ c ∧ c ≤ '9' then some (c.toNat - 48)
  else if 'a' ≤ c ∧ c ≤ 'f' then some (c.toNat - 87)
  else if 'A' ≤ c ∧ c ≤ 'F' then some (c.toNat - 55)
  else none

def isHexChar (c : Char) : Bool := (hexVal c).isSome

/-- Python `f"{b:02X}"`: upper-case hex, zero-padded to at least two digits. -/
def hexPairUpper (b : Nat) : List Char :=
  let ds := (Nat.toDigits 16 b).map Char.toUpper
  if ds.length < 2 then '0' :: ds else ds

/-- Python `f"{b:02x}"`: lower-case hex, zero-padded to at least two digits. -/
def hexPairLower (b : Nat) : List Char :=
  let ds := Nat.toDigits 16 b
  if ds.length < 2 then '0' :: ds else ds

/-- `":".join(f"{b:02X}" for b in data)` — MAC rendering. -/
def macRender (data : List Nat) : String :=
  String.mk (List.intercalate [':'] (data.map hexPairUpper))

/-- `" ".join(f"0x{b:02X}" for b in data)` — raw hex rendering. -/
def hexRender (data : List Nat) : String :=
  String.mk (List.intercalate [' '] (data.map (fun b => '0' :: 'x' :: hexPairUpper b)))

/-- `str(uuid.UUID(bytes=...))`: 32 lower-case hex digits in 8-4-4-4-12
groups separated by hyphens. -/
def uuidRender (bs : List Nat) : String :=
  let h := (bs.map hexPairLower).flatten
  String.mk (h.take 8 ++ '-' ::
    ((h.drop 8).take 4 ++ '-' ::
      ((h.drop 12).take 4 ++ '-' ::
        ((h.drop 16).take 4 ++ '-' :: h.drop 20))))

/-- The unchecked UUID segment swap over `_UUID_SEGMENTS = ((0,4),(4,6),(6,8))`:
reverse bytes 0-3, bytes 4-5 and bytes 6-7, keep the trailing bytes. -/
def swapSeg (l : List Nat) : List Nat :=
  (l.take 4).reverse ++ ((l.drop 4).take 2).reverse ++
    ((l.drop 6).take 2).reverse ++ l.drop 8

/-- `_swap_uuid_segments` from modules/smbios.py: hard error unless the
buffer is exactly 16 bytes. -/
def swap_uuid_segments (data : List Nat) : Except String (List Nat) :=
  if data.length = 16 then .ok (swapSeg data) else .error "UUID field must be 16 bytes"

/-- Python `str.split()` (split on runs of whitespace, no empty tokens). -/
def splitWsAux : List Char → List Char → List (List Char)
  | [], cur => if cur = [] then [] else [cur.reverse]
  | c :: rest, cur =>
      if c.isWhitespace then
        if cur = [] then splitWsAux rest [] else cur.reverse :: splitWsAux rest []
      else splitWsAux rest (c :: cur)

def splitWs (l : List Char) : List (List Char) := splitWsAux l []

/-- The `f"0x{token[i:i+2]}"` pair tokens of an even-length hex digit run. -/
def pairTokens : List Char → List (List Char)
  | a :: b :: rest => ('0' :: 'x' :: [a, b]) :: pairTokens rest
  | _ => []

/-- `_normalize_byte_tokens` from modules/smbios.py: `-`, `:` and `,` become
spaces; a single remaining token that is an even-length run of hex digits
(after stripping and lower-casing an optional 0x mark) is cut into 0xHH
pair tokens; otherwise tokens are returned as split. -/
def normalize_byte_tokens (value : List Char) : List (List Char) :=
  let cleaned := value.map (fun c => if c = '-' ∨ c = ':' ∨ c = ',' then ' ' else c)
  match splitWs cleaned with
  | [token] =>
      let lower := token.map Char.toLower
      let t := if lower.take 2 = ['0', 'x'] then lower.drop 2 else token
      if t.length % 2 = 0 ∧ t ≠ [] ∧ t.all isHexChar then pairTokens t
      else [token]
  | ts => ts

/-- Python `int(s, 10)` restricted to plain digit runs (sign and underscore
forms never reach this tool and are not modelled). -/
def parseDec (t : List Char) : Option Nat :=
  if t ≠ [] ∧ t.all Char.isDigit then
    some (t.foldl (fun acc c => acc * 10 + (c.toNat - 48)) 0)
  else none

/-- Python `int(s, 16)`: an optional 0x/0X mark followed by hex digits. -/
def parseHexNum (t : List Char) : Option Nat :=
  let t := if t.take 2 = ['0', 'x'] ∨ t.take 2 = ['0', 'X'] then t.drop 2 else t
  if t ≠ [] ∧ t.all isHexChar then
    some (t.foldl (fun acc c => acc * 16 + ((hexVal c).getD 0)) 0)
  else none

/-- `_parse_single_byte` from modules/smbios.py: try decimal first; if the
decimal value is absent or out of byte range, fall back to hex. -/
def parse_single_byte (t : List Char) : Except String Nat :=
  match parseDec t with
  | some v =>
      if v ≤ 255 then .ok v
      else match parseHexNum t with
        | some w => if w ≤ 255 then .ok w else .error "Byte out of range (0-255)"
        | none => .error "invalid literal for int with base 16"
  | none =>
      match parseHexNum t with
      | some w => if w ≤ 255 then .ok w else .error "Byte out of range (0-255)"
      | none => .error "invalid literal for int with base 16"

/-- The list comprehension `[_parse_single_byte(tok) for tok in tokens]`:
parse left to right, the first failure raising. -/
def parseTokens : List (List Char) → Except String (List Nat)
  | [] => .ok []
  | t :: rest =>
      match parse_single_byte t, parseTokens rest with
      | .ok v, .ok vs => .ok (v :: vs)
      | .error e, _ => .error e
      | _, .error e => .error e

/-- `_parse_bytes_string` from modules/smbios.py. -/
def parse_bytes_string (value : List Char) (length : Nat) : Except String (List Nat) :=
  let tokens := normalize_byte_tokens value
  if tokens = [] then .error "Value must contain at least one byte"
  else if tokens.length ≠ length then
    .error ("Expected " ++ toString length ++ " byte(s) but got " ++ toString tokens.length)
  else parseTokens tokens

/-- Python `str.isdigit` restricted to ASCII (the digit characters this
tool ever feeds it). -/
def isDigitChar (c : Char) : Bool := 48 ≤ c.toNat && c.toNat ≤ 57

/-- BCD packing: `(hi << 4) | lo` for each pair of digit values. -/
def bcdPack : List Nat → List Nat
  | hi :: lo :: rest => (hi * 16 + lo) :: bcdPack rest
  | _ => []

/-- BCD unpacking from `_decode_field`: nibbles above 9 are rejected,
digits are rendered as characters. -/
def bcdUnpack : List Nat → Except String (List Char)
  | [] => .ok []
  | b :: rest =>
      let hi := b / 16 % 16
      let lo := b % 16
      if 9 < hi ∨ 9 < lo then .error "Invalid BCD digit in battery date"
      else match bcdUnpack rest with
        | .ok cs => .ok (Char.ofNat (48 + hi) :: Char.ofNat (48 + lo) :: cs)
        | .error e => .error e

/-- `bytes.decode("ascii", errors="replace")`: bytes above 0x7F become the
replacement character U+FFFD. -/
def asciiDecodeReplace (bs : List Nat) : List Char :=
  bs.map (fun b => if b ≤ 127 then Char.ofNat b else '�')

/-- Python `str.replace(pat, "")`: drop every (left-to-right, non-
overlapping) occurrence of `pat`. -/
def removeSub (pat : List Char) : List Char → List Char
  | [] => []
  | c :: rest =>
      if (c :: rest).take pat.length = pat ∧ pat ≠ [] then
        removeSub pat (rest.drop (pat.length - 1))
      else c :: removeSub pat rest
termination_by l => l.length
decreasing_by
  · simp only [List.length_cons, List.length_drop]
    omega
  · simp only [List.length_cons]
    omega

/-- Python `str.strip('{}')`. -/
def stripBraces (l : List Char) : List Char :=
  ((l.dropWhile (fun c => c = '{' ∨ c = '}')).reverse.dropWhile
    (fun c => c = '{' ∨ c = '}')).reverse

/-- Consecutive hex digit pairs to byte values. -/
def hexPairsToBytes : List Char → Option (List Nat)
  | [] => some []
  | a :: b :: rest =>
      match hexVal a, hexVal b, hexPairsToBytes rest with
      | some x, some y, some bs => some ((x * 16 + y) :: bs)
      | _, _, _ => none
  | _ => none

/-- Python `uuid.UUID(hex=value).bytes`: drop every "urn:" then every
"uuid:" occurrence, strip braces at the ends, drop hyphens; exactly 32 hex
digits must remain (exotic int literal forms with signs or underscores are
not modelled); the result is the big-endian 16-byte value. -/
def uuidFromHex (h : List Char) : Except String (List Nat) :=
  if h.length = 32 then
    match hexPairsToBytes h with
    | some bs => .ok bs
    | none => .error "badly formed hexadecimal UUID string"
  else .error "badly formed hexadecimal UUID string"

def parseUuidBytes (value : List Char) : Except String (List Nat) :=
  uuidFromHex
    ((stripBraces (removeSub "uuid:".data (removeSub "urn:".data value))).filter
      (fun c => c != '-'))

/-- `_decode_field` from modules/smbios.py. -/
def decode_field (field : FieldDef) (data : List Nat) : Except String String :=
  if field.encoding = "ascii" then
    .ok (String.mk (asciiDecodeReplace (data.takeWhile (fun b => b != 0))))
  else if field.encoding = "uuid" then
    match swap_uuid_segments data with
    | .ok sw => .ok (uuidRender sw)
    | .error e => .error e
  else if field.encoding = "mac" then
    .ok (macRender data)
  else if field.encoding = "bcd_date" then
    match bcdUnpack data with
    | .ok cs => .ok (String.mk cs)
    | .error e => .error e
  else .ok (hexRender data)

/-- `_encode_field` from modules/smbios.py.  Returns the payload bytes and
the printable (normalized) form. -/
def encode_field (field : FieldDef) (value : String) : Except String (List Nat × String) :=
  if field.encoding = "ascii" then
    if ∀ c ∈ value.data, c.toNat ≤ 127 then
      let raw := value.data.map Char.toNat
      if field.length < raw.length then
        .error ("Value too long (" ++ toString raw.length ++ " bytes) for field (max "
          ++ toString field.length ++ ")")
      else
        .ok (raw ++ List.replicate (field.length - raw.length) 0,
             String.mk (asciiDecodeReplace raw))
    else .error "ASCII field cannot encode the given value"
  else if field.encoding = "uuid" then
    match parseUuidBytes value.data with
    | .ok bs =>
        match swap_uuid_segments bs with
        | .ok sw => .ok (sw, uuidRender bs)
        | .error e => .error e
    | .error e => .error e
  else if field.encoding = "mac" then
    match parse_bytes_string value.data field.length with
    | .ok raw => .ok (raw, macRender raw)
    | .error e => .error e
  else if field.encoding = "bcd_date" then
    let digits := value.data.filter isDigitChar
    if digits.length ≠ field.length * 2 then
      .error ("Expected " ++ toString (field.length * 2) ++ " digits but got "
        ++ toString digits.length)
    else
      .ok (bcdPack (digits.map (fun c => c.toNat - 48)), String.mk digits)
  else if field.encoding = "hex" then
    match parse_bytes_string value.data field.length with
    | .ok raw => .ok (raw, hexRender raw)
    | .error e => .error e
  else .error ("Unsupported field encoding '" ++ field.encoding ++ "'")

/-- The process-wide field catalog `FIELDS` from modules/smbios.py,
in source order (Python dicts preserve insertion order). -/
def FIELDS : List (String × FieldDef) := [
  ("system_product_name", ⟨"System Product Name", 50, 0x60, 0x01, 0x61, 0x01, "ascii"⟩),
  ("product_name2", ⟨"Product Name2", 50, 0x60, 0x02, 0x61, 0x02, "ascii"⟩),
  ("system_family", ⟨"System Family", 30, 0x60, 0x03, 0x61, 0x03, "ascii"⟩),
  ("marketing_name2", ⟨"Marketing Name2", 30, 0x60, 0x04, 0x61, 0x04, "ascii"⟩),
  ("uuid", ⟨"UUID", 16, 0x60, 0x05, 0x61, 0x05, "uuid"⟩),
  ("serial_number_system", ⟨"Serial Number (System)", 22, 0x60, 0x06, 0x61, 0x06, "ascii"⟩),
  ("serial_number_mb", ⟨"Serial Number (MB)", 22, 0x60, 0x07, 0x61, 0x07, "ascii"⟩),
  ("asset_tag", ⟨"Asset Tag", 22, 0x60, 0x08, 0x61, 0x08, "ascii"⟩),
  ("project_define", ⟨"Project Define", 3, 0x60, 0x09, 0x61, 0x09, "ascii"⟩),
  ("country_type", ⟨"Country Type", 1, 0x60, 0x0A, 0x61, 0x0A, "hex"⟩),
  ("project_id", ⟨"Project ID", 1, 0x60, 0x0B, 0x61, 0x0B, "hex"⟩),
  ("manufacture_name", ⟨"Manufacture Name", 16, 0x60, 0x0C, 0x61, 0x0C, "ascii"⟩),
  ("shipping_region", ⟨"Shipping Region", 1, 0x60, 0x0D, 0x61, 0x0D, "hex"⟩),
  ("secure_boot", ⟨"Secure Boot", 1, 0x60, 0x0E, 0x61, 0x0E, "hex"⟩),
  ("uefi_boot_type", ⟨"UEFI Boot Type", 1, 0x60, 0x0F, 0x61, 0x0F, "hex"⟩),
  ("vmd_controller", ⟨"VMD Controller", 1, 0x60, 0x10, 0x61, 0x10, "hex"⟩),
  ("vpro_sku", ⟨"Vpro SKU", 1, 0x60, 0x11, 0x61, 0x11, "hex"⟩),
  ("os_type", ⟨"OS Type", 1, 0x60, 0x12, 0x61, 0x12, "hex"⟩),
  ("mac_address", ⟨"MAC Address", 6, 0x60, 0x13, 0x61, 0x13, "mac"⟩),
  ("touch_pad", ⟨"Touch Pad", 1, 0x60, 0x14, 0x61, 0x14, "hex"⟩),
  ("keyboard_backlight_enable", ⟨"Keyboard Backlight Enable", 1, 0x60, 0x15, 0x61, 0x15, "hex"⟩),
  ("kb_matrix_type", ⟨"KB Matrix Type", 1, 0x60, 0x16, 0x61, 0x16, "hex"⟩),
  ("copilotkey_type", ⟨"Copilotkey Type", 1, 0x60, 0x17, 0x61, 0x17, "hex"⟩),
  ("mic_type", ⟨"MIC Type", 1, 0x60, 0x18, 0x61, 0x18, "hex"⟩),
  ("computrace", ⟨"Computrace", 1, 0x60, 0x19, 0x61, 0x19, "hex"⟩),
  ("custom_logo", ⟨"Custom Logo", 1, 0x60, 0x1A, 0x61, 0x1A, "hex"⟩),
  ("battery_first_use_date", ⟨"Battery First Use Date", 4, 0x60, 0x1B, 0x61, 0x1B, "bcd_date"⟩),
  ("mfg_force_boot", ⟨"MFG Force Boot", 1, 0x60, 0x1C, 0x61, 0x1C, "hex"⟩),
  ("ownership_tag", ⟨"Ownership Tag", 50, 0x60, 0x1D, 0x61, 0x1D, "ascii"⟩),
  ("load_default", ⟨"Load Default", 1, 0x60, 0x1E, 0x61, 0x1E, "hex"⟩),
  ("sku_number", ⟨"SKU Number", 16, 0x60, 0x1F, 0x61, 0x1F, "ascii"⟩)]

/-- `_SMBIOS_DEFAULTS` from ecsim.py (no entry for sku_number). -/
def SMBIOS_DEFAULTS : List (String × String) := [
  ("system_product_name", "XPS-9710-BOM123"),
  ("product_name2", "XPS-9710-RevB"),
  ("system_family", "XPS Performance Series"),
  ("marketing_name2", "XPS Marketing Name R2"),
  ("uuid", "12345678-90ab-cdef-1234-567890abcdef"),
  ("serial_number_system", "SYSNMB0001234567890"),
  ("serial_number_mb", "MBNMB0001234567890"),
  ("asset_tag", "Asset-Tag-001"),
  ("project_define", "P01"),
  ("country_type", "0x01"),
  ("project_id", "0x02"),
  ("manufacture_name", "ExampleMFG"),
  ("shipping_region", "0x21"),
  ("secure_boot", "0x01"),
  ("uefi_boot_type", "0x02"),
  ("vmd_controller", "0x01"),
  ("vpro_sku", "0x01"),
  ("os_type", "0x02"),
  ("mac_address", "AA:BB:CC:DD:EE:FF"),
  ("touch_pad", "0x01"),
  ("keyboard_backlight_enable", "0x01"),
  ("kb_matrix_type", "0x02"),
  ("copilotkey_type", "0x01"),
  ("mic_type", "0x01"),
  ("computrace", "0x01"),
  ("custom_logo", "0x01"),
  ("battery_first_use_date", "0x20 0x24 0x03 0x15"),
  ("mfg_force_boot", "0x00"),
  ("ownership_tag", "Demo Ownership Tag"),
  ("load_default", "0x01")]

/-- `_le16` from ecsim.py. -/
def le16 (n : Nat) : List Nat := [n % 256, n / 256 % 256]

/-- `_ascii_fixed` from ecsim.py: ASCII-encode with errors="replace"
(non-ASCII characters become the byte of '?'), truncate, zero-pad. -/
def ascii_fixed (str : String) (length : Nat) : List Nat :=
  let b := (str.data.map (fun c => if c.toNat ≤ 127 then c.toNat else 63)).take length
  b ++ List.replicate (length - b.length) 0

/-- The `self.kbtype` sub-state of the simulator. -/
structure KbType where
  brand : Nat
  type : Option Nat
  category : Option Nat
  size : Option Nat
  deriving DecidableEq

/-- The full mutable state of `EcSimulator`. -/
structure SimState where
  current_cmd : Option Nat
  data : List Nat
  out : List Nat
  responded : Bool
  version : String
  led_power : Bool
  led_charge : Bool
  fan_mode : String
  fan_duty : Nat
  fan_rpm : Nat
  kb_backlight_on : Bool
  kb_backlight_level : Nat
  kbtype : KbType
  batt_mode : String
  batt_charging : Bool
  batt_discharging : Bool
  temps : List (Nat × Nat)
  batt_info : List (Nat × List Nat)
  smbios_by_read : List (Nat × FieldDef)
  smbios_by_write : List (Nat × FieldDef)
  smbios_store : List (Nat × List Nat)
  smbios_length_override : List (Nat × Nat)
  deriving DecidableEq

/-- `EcSimulator._make_smbios_payload`: encode the default text, or fall
back to a zero buffer of the catalog length. -/
def make_smbios_payload (field : FieldDef) (text : Option String) : List Nat :=
  match text with
  | none => List.replicate field.length 0
  | some t =>
      match encode_field field t with
      | .ok p => p.1
      | .error _ => List.replicate field.length 0

/-- The loop of `EcSimulator._init_smbios_defaults` over the catalog,
building by_read, by_write and the store. -/
def initFold : List (String × FieldDef) → List (Nat × FieldDef) → List (Nat × FieldDef) →
    List (Nat × List Nat) → List (Nat × FieldDef) × List (Nat × FieldDef) × List (Nat × List Nat)
  | [], br, bw, st => (br, bw, st)
  | (key, f) :: rest, br, bw, st =>
      initFold rest (dictSet f.read_sub f br) (dictSet f.write_sub f bw)
        (dictSet f.read_sub (make_smbios_payload f (dictGet key SMBIOS_DEFAULTS)) st)

def initMaps : List (Nat × FieldDef) × List (Nat × FieldDef) × List (Nat × List Nat) :=
  initFold FIELDS [] [] []

/-- The state of a freshly constructed `EcSimulator`. -/
def initState : SimState := {
  current_cmd := none, data := [], out := [], responded := false,
  version := "SimEC v1.0",
  led_power := false, led_charge := false,
  fan_mode := "auto", fan_duty := 128, fan_rpm := 2500,
  kb_backlight_on := false, kb_backlight_level := 0,
  kbtype := ⟨0, none, none, none⟩,
  batt_mode := "auto", batt_charging := false, batt_discharging := false,
  temps := [(0x01, 450), (0x02, 420), (0x03, 480), (0x04, 300),
            (0x05, 305), (0x06, 290), (0x07, 295)],
  batt_info := [
    (0x01, le16 0x0000), (0x02, le16 0x0001), (0x03, le16 3000), (0x04, le16 11400),
    (0x05, le16 1500), (0x06, le16 1200), (0x07, le16 5), (0x08, le16 80),
    (0x09, le16 78), (0x0A, le16 4200), (0x0B, le16 5200), (0x0C, le16 2000),
    (0x0D, le16 12600), (0x0E, le16 0x0000), (0x0F, le16 120), (0x10, le16 5600),
    (0x11, le16 11400), (0x12, le16 0x1234), (0x13, le16 0x5E21), (0x14, le16 0x0420),
    (0x15, ascii_fixed "SimBattery" 14), (0x16, ascii_fixed "SimDevice" 14),
    (0x17, ascii_fixed "Li-Ion" 6), (0x18, ascii_fixed "SimData" 14),
    (0x19, le16 2850), (0x1A, le16 2850), (0x1B, le16 2850), (0x1C, le16 2850),
    (0x1D, le16 120), (0x1E, le16 110), (0x1F, le16 80)],
  smbios_by_read := initMaps.1,
  smbios_by_write := initMaps.2.1,
  smbios_store := initMaps.2.2,
  smbios_length_override := [] }

/-- `EcSimulator._effective_length`. -/
def effective_length (s : SimState) (field : FieldDef) : Nat :=
  (dictGet field.read_sub s.smbios_length_override).getD field.length

/-- `EcSimulator.override_smbios_field_length`. -/
def override_smbios_field_length (read_sub : Nat) (length : Int) (s : SimState) :
    Except String SimState :=
  if length ≤ 0 then .error "Length must be positive"
  else
    let L := length.toNat
    let stored := (dictGet read_sub s.smbios_store).getD []
    let stored := if stored.length < L then stored ++ List.replicate (L - stored.length) 0
                  else if L < stored.length then stored.take L else stored
    .ok { s with smbios_length_override := dictSet read_sub L s.smbios_length_override,
                 smbios_store := dictSet read_sub stored s.smbios_store }

/-- `EcSimulator.write_command`: a new transaction begins; the previous
payload, output buffer and responded flag are cleared. -/
def write_command (cmd : Nat) (s : SimState) : SimState :=
  { s with current_cmd := some (cmd % 256), data := [], out := [], responded := false }

/-- `EcSimulator.write_data`. -/
def write_data (b : Nat) (s : SimState) : SimState :=
  { s with data := s.data ++ [b % 256] }

/-- `EcSimulator._resp_smbios_write`. -/
def resp_smbios_write (s : SimState) : SimState :=
  match s.data with
  | [] => { s with out := [] }
  | sub :: payload =>
      match dictGet sub s.smbios_by_write with
      | none => { s with out := [] }
      | some field =>
          let length := effective_length s field
          let payload := if payload.length < length then
              payload ++ List.replicate (length - payload.length) 0 else payload
          let payload := if length < payload.length then payload.take length else payload
          { s with smbios_store := dictSet field.read_sub (payload.map (fun b => b % 256)) s.smbios_store,
                   out := [] }

/-- `EcSimulator._resp_smbios_read`. -/
def resp_smbios_read (s : SimState) : SimState :=
  match s.data with
  | [] => { s with out := [] }
  | sub :: _ =>
      match dictGet sub s.smbios_by_read with
      | none => { s with out := [] }
      | some field =>
          let length := effective_length s field
          match dictGet sub s.smbios_store with
          | none =>
              { s with smbios_store := dictSet sub (List.replicate length 0) s.smbios_store,
                       out := List.replicate length 0 }
          | some stored =>
              let data := if stored.length < length then
                  stored ++ List.replicate (length - stored.length) 0
                else if length < stored.length then stored.take length else stored
              { s with out := data }

/-- `EcSimulator._resp_ecversion`. -/
def resp_ecversion (s : SimState) : SimState :=
  match s.data with
  | first :: _ =>
      if first = 0x01 then { s with out := ascii_fixed s.version 20 } else { s with out := [] }
  | [] => { s with out := [] }

/-- `EcSimulator._resp_led`. -/
def resp_led (s : SimState) : SimState :=
  match s.data with
  | which :: val :: _ =>
      if which = 0x01 then { s with led_power := val != 0, out := [] }
      else if which = 0x02 then { s with led_charge := val != 0, out := [] }
      else { s with out := [] }
  | _ => { s with out := [] }

/-- `EcSimulator._resp_fan`. -/
def resp_fan (s : SimState) : SimState :=
  match s.data with
  | [] => { s with out := [] }
  | sub :: rest =>
      if sub = 0x01 then
        match rest with
        | d1 :: _ => { s with fan_mode := if d1 = 0x01 then "auto" else "debug", out := [] }
        | [] => { s with out := [] }
      else if sub = 0x02 then
        match rest with
        | _ :: d2 :: _ =>
            let duty := min 255 d2
            let rpm := if s.fan_mode = "debug" then duty * 20 else s.fan_rpm
            { s with fan_duty := duty, fan_rpm := rpm, out := [] }
        | _ => { s with out := [] }
      else if sub = 0x03 then
        match rest with
        | _ :: d2 :: d3 :: _ => { s with fan_rpm := min 0xFFFF (d2 ||| (d3 <<< 8)), out := [] }
        | _ => { s with out := [] }
      else if sub = 0x04 then
        match rest with
        | d1 :: _ =>
            if d1 = 0x01 then { s with out := [s.fan_duty % 256] } else { s with out := [] }
        | [] => { s with out := [] }
      else if sub = 0x05 then
        match rest with
        | d1 :: _ => if d1 = 0x02 then { s with out := le16 s.fan_rpm } else { s with out := [] }
        | [] => { s with out := [] }
      else { s with out := [] }

/-- `EcSimulator._resp_temp`. -/
def resp_temp (s : SimState) : SimState :=
  match s.data with
  | [] => { s with out := [] }
  | sensor :: _ => { s with out := le16 ((dictGet sensor s.temps).getD 0) }

/-- `EcSimulator._resp_batt_ctrl`. -/
def resp_batt_ctrl (s : SimState) : SimState :=
  match s.data with
  | [] => { s with out := [] }
  | sub :: rest =>
      if sub = 0x01 then
        match rest with
        | d1 :: _ => { s with batt_mode := if d1 = 0x01 then "auto" else "debug", out := [] }
        | [] => { s with out := [] }
      else if sub = 0x02 then
        match rest with
        | d1 :: _ =>
            if d1 = 0x01 then { s with batt_charging := true, batt_discharging := false, out := [] }
            else { s with out := [] }
        | [] => { s with out := [] }
      else if sub = 0x03 then
        match rest with
        | d1 :: _ =>
            if d1 = 0x01 then { s with batt_discharging := true, batt_charging := false, out := [] }
            else { s with out := [] }
        | [] => { s with out := [] }
      else { s with out := [] }

/-- `EcSimulator._resp_batt_info`. -/
def resp_batt_info (s : SimState) : SimState :=
  match s.data with
  | [] => { s with out := [] }
  | sub :: _ => { s with out := (dictGet sub s.batt_info).getD [] }

/-- `EcSimulator._resp_kblight`. -/
def resp_kblight (s : SimState) : SimState :=
  match s.data with
  | [] => { s with out := [] }
  | sub :: rest =>
      if sub = 0x01 then { s with kb_backlight_on := true, out := [] }
      else if sub = 0x02 then { s with kb_backlight_on := false, out := [] }
      else if sub = 0x03 then
        match rest with
        | d1 :: _ =>
            let level := min 3 d1
            { s with kb_backlight_level := level, kb_backlight_on := decide (0 < level), out := [] }
        | [] => { s with out := [] }
      else { s with out := [] }

/-- `EcSimulator._resp_kbtype`.  This handler exists in the source but no
branch of `_generate_response` dispatches to it.  A one-element payload
would raise IndexError in Python; that case is `none` here. -/
def resp_kbtype (s : SimState) : Option SimState :=
  match s.data with
  | [] => some { s with out := [] }
  | [_] => none
  | [brand, t] => some { s with kbtype := ⟨brand, some t, none, none⟩, out := [] }
  | brand :: c :: sz :: _ => some { s with kbtype := ⟨brand, none, some c, some sz⟩, out := [] }

/-- `EcSimulator._generate_response`: dispatch on the stored command byte;
an unknown command (or no command) yields an empty response. -/
def generate_response (s : SimState) : SimState :=
  match s.current_cmd with
  | none => s
  | some cmd =>
      if cmd = 0x48 then resp_ecversion s
      else if cmd = 0x10 then resp_led s
      else if cmd = 0x20 then resp_fan s
      else if cmd = 0x28 then resp_temp s
      else if cmd = 0x30 then resp_batt_ctrl s
      else if cmd = 0x31 then resp_batt_info s
      else if cmd = 0x40 then resp_kblight s
      else if cmd = 0x60 then resp_smbios_write s
      else if cmd = 0x61 then resp_smbios_read s
      else { s with out := [] }

/-- `EcSimulator.read_byte`: generate the response at most once per
transaction (only when the output buffer is empty and the responded flag is
unset), then pop one byte; an empty buffer blocks up to the timeout and
raises TimeoutError (`none` here). -/
def read_byte (s : SimState) : Option Nat × SimState :=
  let s := if s.out = [] ∧ s.responded = false then
    { generate_response s with responded := true } else s
  match s.out with
  | [] => (none, s)
  | b :: rest => (some b, { s with out := rest })

/-- One observed outcome of a `read_byte` call during the drain phase of
`txrx`: a byte that arrived after `dt` seconds, or a per-read timeout
(TimeoutError) after `dt` seconds. -/
inductive ReadOutcome where
  | byte (b : Nat) (dt : ℚ)
  | timeout (dt : ℚ)
  deriving DecidableEq

/-- The drain loop of `txrx` (ecio.py) over an arbitrary backend read
trace: while elapsed time `t` has not passed `overall`, read; append each
byte and keep draining; a per-read timeout sets the timed_out flag and
breaks.  Returns the collected bytes and that flag. -/
def drainGo (overall : ℚ) : List ReadOutcome → ℚ → List Nat → List Nat × Bool
  | [], _, acc => (acc, false)
  | .byte b dt :: rest, t, acc =>
      if overall < t then (acc, false) else drainGo overall rest (t + dt) (acc ++ [b])
  | .timeout _ :: _, t, acc =>
      if overall < t then (acc, false) else (acc, true)

/-- Does the drain loop of `txrx`, started at elapsed time `t`, end by a
per-read timeout (read_byte raising TimeoutError while the overall
deadline has not yet passed)?  If false, the loop instead stops because
the elapsed time passed `overall`. -/
def endsByReadTimeout (overall : ℚ) : List ReadOutcome → ℚ → Bool
  | [], _ => false
  | .byte _ dt :: rest, t =>
      if overall < t then false else endsByReadTimeout overall rest (t + dt)
  | .timeout _ :: _, t => if overall < t then false else true

/-- The length-reconciliation step of `txrx` (ecio.py): with no expected
length return everything collected, truncate an over-long response, fail a
short response (when the expected length is positive) with a message that
depends on how the drain loop ended. -/
def reconcile (out : List Nat) (timedOut : Bool) (expectLen : Option Nat) :
    Except String (List Nat) :=
  match expectLen with
  | none => .ok out
  | some n =>
      if out.length < n ∧ 0 < n then
        .error ((if timedOut then "response timed out" else "response ended before expected length")
          ++ ": received " ++ toString out.length ++ " of " ++ toString n ++ " byte(s)")
      else .ok (out.take n)

/-- `txrx` with the backend abstracted as a read trace.  The write phase
cannot fail and does not influence the drain, so only the drain and the
reconciliation are modelled. -/
def txrxTrace (overall : ℚ) (trace : List ReadOutcome) (expectLen : Option Nat) :
    Except String (List Nat) :=
  let r := drainGo overall trace 0 []
  reconcile r.1 r.2 expectLen

/-- The drain loop of `txrx` running against the simulator backend.  A
successful simulator read returns without measurable delay, so elapsed
time stays at `t`; a per-read timeout breaks the loop, so its delay never
matters.  `fuel` bounds the loop; theorems supply enough fuel for the loop
to reach its real exit. -/
def drainSim : Nat → ℚ → ℚ → SimState → List Nat × Bool × SimState
  | 0, _, _, s => ([], false, s)
  | fuel + 1, t, overall, s =>
      if overall < t then ([], false, s)
      else match read_byte s with
        | (some b, s') =>
            let r := drainSim fuel t overall s'
            (b :: r.1, r.2.1, r.2.2)
        | (none, s') => ([], true, s')

/-- `txrx(ec, cmd, data, expect_len, wait_s, overall_timeout_s)` with the
simulator as backend: write the command byte, write each payload byte,
drain, reconcile.  Returns the result and the final device state. -/
def txrx (cmd : Nat) (data : List Nat) (expectLen : Option Nat)
    (overall : ℚ) (fuel : Nat) (s : SimState) : Except String (List Nat) × SimState :=
  let s1 := data.foldl (fun st b => write_data b st) (write_command cmd s)
  let r := drainSim fuel 0 overall s1
  (reconcile r.1 r.2.1 expectLen, r.2.2)

/-- The simulator state after the write phase of `txrx`: the command byte
then each payload byte. -/
def afterWrites (cmd : Nat) (data : List Nat) (s : SimState) : SimState :=
  data.foldl (fun st b => write_data b st) (write_command cmd s)

/-- Simulator states reachable from construction through the public
simulator interface: write_command, write_data, read_byte and the length
override. -/
inductive Reachable : SimState → Prop where
  | init : Reachable initState
  | wc (c : Nat) {s : SimState} : Reachable s → Reachable (write_command c s)
  | wd (b : Nat) {s : SimState} : Reachable s → Reachable (write_data b s)
  | rb {s : SimState} : Reachable s → Reachable (read_byte s).2
  | ov (sub : Nat) (L : Int) {s s' : SimState} : Reachable s →
      override_smbios_field_length sub L s = .ok s' → Reachable s'

/- ------------------------------------------------------------------ -/
/- Helper lemmas.                                                      -/
/- ------------------------------------------------------------------ -/

lemma dictGet_dictSet_self {κ α : Type} [DecidableEq κ] (k : κ) (v : α) (l : List (κ × α)) :
    dictGet k (dictSet k v l) = some v := by
  induction l with
  | nil => simp [dictGet, dictSet]
  | cons p rest ih =>
      obtain ⟨k', v'⟩ := p
      by_cases h : k' = k
      · simp [dictGet, dictSet, h]
      · simp [dictGet, dictSet, h, ih]

lemma dictGet_dictSet_ne {κ α : Type} [DecidableEq κ] {k q : κ} (hne : q ≠ k) (v : α)
    (l : List (κ × α)) : dictGet q (dictSet k v l) = dictGet q l := by
  have hkq : ¬(k = q) := fun h => hne (Eq.symm h)
  induction l with
  | nil => simp [dictGet, dictSet, hkq]
  | cons p rest ih =>
      obtain ⟨k', v'⟩ := p
      by_cases h : k' = k
      · subst h
        simp [dictGet, dictSet, hkq]
      · simp only [dictSet, if_neg h, dictGet]
        by_cases h2 : k' = q
        · simp [h2]
        · simp [h2, ih]

lemma dictGet_mem {κ α : Type} [DecidableEq κ] {k : κ} {v : α} :
    ∀ {l : List (κ × α)}, dictGet k l = some v → (k, v) ∈ l := by
  intro l
  induction l with
  | nil => intro h; simp [dictGet] at h
  | cons p rest ih =>
      obtain ⟨k', v'⟩ := p
      intro h
      by_cases hk : k' = k
      · subst hk
        simp [dictGet] at h
        simp [h]
      · simp [dictGet, hk] at h
        simp [ih h]

lemma takeWhile_append_zeros (raw : List Nat) (k : Nat) (h : ∀ b ∈ raw, b ≠ 0) :
    (raw ++ List.replicate k 0).takeWhile (fun b => b != 0) = raw := by
  induction raw with
  | nil =>
      cases k with
      | zero => rfl
      | succ n => simp [List.replicate_succ, List.takeWhile_cons]
  | cons a rest ih =>
      have ha : a ≠ 0 := h a (by simp)
      simp [List.takeWhile_cons, ha, ih fun b hb => h b (by simp [hb])]

lemma asciiDecodeReplace_map_toNat (cs : List Char) (h : ∀ c ∈ cs, c.toNat ≤ 127) :
    asciiDecodeReplace (cs.map Char.toNat) = cs := by
  induction cs with
  | nil => rfl
  | cons c rest ih =>
      have hc := h c (by simp)
      simp only [asciiDecodeReplace, List.map_cons] at ih ⊢
      rw [if_pos hc, Char.ofNat_toNat]
      exact congrArg _ (ih fun b hb => h b (by simp [hb]))

lemma string_mk_data (v : String) : String.mk v.data = v := by
  cases v
  rfl

lemma parseTokens_length (ts : List (List Char)) (bs : List Nat)
    (h : parseTokens ts = .ok bs) : bs.length = ts.length := by
  induction ts generalizing bs with
  | nil =>
      simp [parseTokens] at h
      simp [← h]
  | cons t rest ih =>
      unfold parseTokens at h
      rcases h1 : parse_single_byte t with e | v <;> rw [h1] at h
      · simp at h
      · rcases h2 : parseTokens rest with e | vs <;> rw [h2] at h
        · simp at h
        · simp at h
          subst h
          simp [ih vs h2]

lemma bcdPack_length : ∀ l : List Nat, (bcdPack l).length = l.length / 2
  | [] => rfl
  | [_] => by simp [bcdPack]
  | _ :: _ :: rest => by
      simp [bcdPack, bcdPack_length rest]
      omega

lemma hexPairsToBytes_length : ∀ (l : List Char) (bs : List Nat),
    hexPairsToBytes l = some bs → 2 * bs.length = l.length
  | [], bs => by
      intro h
      simp [hexPairsToBytes] at h
      simp [← h]
  | [a], bs => by
      intro h
      simp [hexPairsToBytes] at h
  | a :: b :: rest, bs => by
      intro h
      unfold hexPairsToBytes at h
      rcases ha : hexVal a with _ | x <;> rw [ha] at h
      · simp at h
      · rcases hb : hexVal b with _ | y <;> rw [hb] at h
        · simp at h
        · rcases hr : hexPairsToBytes rest with _ | bs' <;> rw [hr] at h
          · simp at h
          · simp at h
            have := hexPairsToBytes_length rest bs' hr
            simp [← h]
            omega

lemma isDigitChar_bounds {c : Char} (h : isDigitChar c) :
    48 ≤ c.toNat ∧ c.toNat ≤ 57 := by
  simpa [isDigitChar] using h

lemma bcd_roundtrip : ∀ ds : List Char, (∀ c ∈ ds, isDigitChar c) → ds.length % 2 = 0 →
    bcdUnpack (bcdPack (ds.map (fun c => c.toNat - 48))) = .ok ds
  | [] => fun _ _ => rfl
  | [c] => by
      intro _ h
      simp at h
  | c1 :: c2 :: rest => by
      intro hd hl
      obtain ⟨h1l, h1h⟩ := isDigitChar_bounds (hd c1 (by simp))
      obtain ⟨h2l, h2h⟩ := isDigitChar_bounds (hd c2 (by simp))
      have hl2 : rest.length % 2 = 0 := by
        simp only [List.length_cons] at hl
        omega
      have hrec := bcd_roundtrip rest (fun c hc => hd c (by simp [hc])) hl2
      simp only [List.map_cons, bcdPack, bcdUnpack]
      have hhi : ((c1.toNat - 48) * 16 + (c2.toNat - 48)) / 16 % 16 = c1.toNat - 48 := by omega
      have hlo : ((c1.toNat - 48) * 16 + (c2.toNat - 48)) % 16 = c2.toNat - 48 := by omega
      rw [hhi, hlo, if_neg (by omega)]
      rw [hrec]
      have e1 : 48 + (c1.toNat - 48) = c1.toNat := by omega
      have e2 : 48 + (c2.toNat - 48) = c2.toNat := by omega
      rw [e1, e2, Char.ofNat_toNat, Char.ofNat_toNat]

lemma swapSeg_swapSeg (l : List Nat) (h : l.length = 16) : swapSeg (swapSeg l) = l := by
  match l, h with
  | [a0, a1, a2, a3, a4, a5, a6, a7, a8, a9, a10, a11, a12, a13, a14, a15], _ => rfl

lemma swapSeg_length (l : List Nat) (h : l.length = 16) : (swapSeg l).length = 16 := by
  simp [swapSeg]
  try omega

lemma uuidFromHex_length (L : List Char) (bs : List Nat)
    (h : uuidFromHex L = .ok bs) : bs.length = 16 := by
  unfold uuidFromHex at h
  split_ifs at h with h32
  · rcases hp : hexPairsToBytes L with _ | bs' <;> rw [hp] at h
    · simp at h
    · simp at h
      subst h
      have := hexPairsToBytes_length _ _ hp
      omega

lemma parseUuidBytes_length (v : List Char) (bs : List Nat)
    (h : parseUuidBytes v = .ok bs) : bs.length = 16 :=
  uuidFromHex_length _ _ h

lemma round_trip_ascii (field : FieldDef) (henc : field.encoding = "ascii") (v : String)
    (bs : List Nat) (p : String) (h : encode_field field v = .ok (bs, p))
    (hnul : ∀ c ∈ v.data, c.toNat ≠ 0) :
    decode_field field bs = .ok p ∧ p = v := by
  unfold encode_field at h
  rw [henc] at h
  simp only [reduceIte] at h
  split_ifs at h with hall hlong
  simp only [Except.ok.injEq, Prod.mk.injEq] at h
  obtain ⟨hbs, hp2⟩ := h
  subst hbs
  subst hp2
  have hraw0 : ∀ b ∈ v.data.map Char.toNat, b ≠ 0 := by
    intro b hb
    obtain ⟨c, hc, rfl⟩ := List.mem_map.mp hb
    exact hnul c hc
  have hpv : String.mk (asciiDecodeReplace (v.data.map Char.toNat)) = v := by
    rw [asciiDecodeReplace_map_toNat _ hall, string_mk_data]
  constructor
  · unfold decode_field
    rw [henc]
    simp only [reduceIte]
    rw [takeWhile_append_zeros _ _ hraw0]
  · exact hpv

lemma round_trip_uuid (field : FieldDef) (henc : field.encoding = "uuid") (v : String)
    (bs : List Nat) (p : String) (h : encode_field field v = .ok (bs, p)) :
    decode_field field bs = .ok p := by
  unfold encode_field at h
  rw [henc] at h
  simp only [reduceIte, String.reduceEq] at h
  rcases hp : parseUuidBytes v.data with e | parsed <;> rw [hp] at h
  · simp at h
  · have hlen : parsed.length = 16 := parseUuidBytes_length _ _ hp
    simp only [swap_uuid_segments, hlen, reduceIte] at h
    simp only [Except.ok.injEq, Prod.mk.injEq] at h
    obtain ⟨hbs, hpr⟩ := h
    subst hbs
    subst hpr
    unfold decode_field
    rw [henc]
    simp only [reduceIte, String.reduceEq]
    unfold swap_uuid_segments
    rw [if_pos (swapSeg_length _ hlen), swapSeg_swapSeg _ hlen]

lemma round_trip_mac (field : FieldDef) (henc : field.encoding = "mac") (v : String)
    (bs : List Nat) (p : String) (h : encode_field field v = .ok (bs, p)) :
    decode_field field bs = .ok p := by
  unfold encode_field at h
  rw [henc] at h
  simp only [reduceIte, String.reduceEq] at h
  rcases hp : parse_bytes_string v.data field.length with e | raw <;> rw [hp] at h
  · simp at h
  · simp only [Except.ok.injEq, Prod.mk.injEq] at h
    obtain ⟨hbs, hpr⟩ := h
    subst hbs
    subst hpr
    unfold decode_field
    rw [henc]
    simp

lemma round_trip_bcd (field : FieldDef) (henc : field.encoding = "bcd_date") (v : String)
    (bs : List Nat) (p : String) (h : encode_field field v = .ok (bs, p)) :
    decode_field field bs = .ok p := by
  unfold encode_field at h
  rw [henc] at h
  simp only [reduceIte, String.reduceEq] at h
  split_ifs at h with hcnt
  simp only [Except.ok.injEq, Prod.mk.injEq] at h
  obtain ⟨hbs, hpr⟩ := h
  subst hbs
  subst hpr
  unfold decode_field
  rw [henc]
  simp only [reduceIte, String.reduceEq]
  rw [bcd_roundtrip _ (fun c hc => List.of_mem_filter hc) (by omega)]

lemma round_trip_hex (field : FieldDef) (henc : field.encoding = "hex") (v : String)
    (bs : List Nat) (p : String) (h : encode_field field v = .ok (bs, p)) :
    decode_field field bs = .ok p := by
  unfold encode_field at h
  rw [henc] at h
  simp only [reduceIte, String.reduceEq] at h
  rcases hp : parse_bytes_string v.data field.length with e | raw <;> rw [hp] at h
  · simp at h
  · simp only [Except.ok.injEq, Prod.mk.injEq] at h
    obtain ⟨hbs, hpr⟩ := h
    subst hbs
    subst hpr
    unfold decode_field
    rw [henc]
    simp

/-- The four SMBIOS-related components of the simulator state agree. -/
def smbiosUntouched (a b : SimState) : Prop :=
  a.smbios_by_read = b.smbios_by_read ∧ a.smbios_by_write = b.smbios_by_write ∧
  a.smbios_store = b.smbios_store ∧ a.smbios_length_override = b.smbios_length_override

lemma resp_ecversion_smbios (s : SimState) : smbiosUntouched (resp_ecversion s) s := by
  unfold resp_ecversion smbiosUntouched
  repeat' split
  all_goals exact ⟨rfl, rfl, rfl, rfl⟩

lemma resp_led_smbios (s : SimState) : smbiosUntouched (resp_led s) s := by
  unfold resp_led smbiosUntouched
  repeat' split
  all_goals exact ⟨rfl, rfl, rfl, rfl⟩

lemma resp_fan_smbios (s : SimState) : smbiosUntouched (resp_fan s) s := by
  unfold resp_fan smbiosUntouched
  repeat' split
  all_goals exact ⟨rfl, rfl, rfl, rfl⟩

lemma resp_temp_smbios (s : SimState) : smbiosUntouched (resp_temp s) s := by
  unfold resp_temp smbiosUntouched
  repeat' split
  all_goals exact ⟨rfl, rfl, rfl, rfl⟩

lemma resp_batt_ctrl_smbios (s : SimState) : smbiosUntouched (resp_batt_ctrl s) s := by
  unfold resp_batt_ctrl smbiosUntouched
  repeat' split
  all_goals exact ⟨rfl, rfl, rfl, rfl⟩

lemma resp_batt_info_smbios (s : SimState) : smbiosUntouched (resp_batt_info s) s := by
  unfold resp_batt_info smbiosUntouched
  repeat' split
  all_goals exact ⟨rfl, rfl, rfl, rfl⟩

lemma resp_kblight_smbios (s : SimState) : smbiosUntouched (resp_kblight s) s := by
  unfold resp_kblight smbiosUntouched
  repeat' split
  all_goals exact ⟨rfl, rfl, rfl, rfl⟩

lemma resp_ecversion_kbtype (s : SimState) : (resp_ecversion s).kbtype = s.kbtype := by
  unfold resp_ecversion
  repeat' split
  all_goals rfl

lemma resp_led_kbtype (s : SimState) : (resp_led s).kbtype = s.kbtype := by
  unfold resp_led
  repeat' split
  all_goals rfl

lemma resp_fan_kbtype (s : SimState) : (resp_fan s).kbtype = s.kbtype := by
  unfold resp_fan
  repeat' split
  all_goals rfl

lemma resp_temp_kbtype (s : SimState) : (resp_temp s).kbtype = s.kbtype := by
  unfold resp_temp
  repeat' split
  all_goals rfl

lemma resp_batt_ctrl_kbtype (s : SimState) : (resp_batt_ctrl s).kbtype = s.kbtype := by
  unfold resp_batt_ctrl
  repeat' split
  all_goals rfl

lemma resp_batt_info_kbtype (s : SimState) : (resp_batt_info s).kbtype = s.kbtype := by
  unfold resp_batt_info
  repeat' split
  all_goals rfl

lemma resp_kblight_kbtype (s : SimState) : (resp_kblight s).kbtype = s.kbtype := by
  unfold resp_kblight
  repeat' split
  all_goals rfl

lemma resp_smbios_write_kbtype (s : SimState) : (resp_smbios_write s).kbtype = s.kbtype := by
  unfold resp_smbios_write
  repeat' split
  all_goals rfl

lemma resp_smbios_read_kbtype (s : SimState) : (resp_smbios_read s).kbtype = s.kbtype := by
  unfold resp_smbios_read
  repeat' split
  all_goals rfl

lemma generate_response_kbtype (s : SimState) : (generate_response s).kbtype = s.kbtype := by
  unfold generate_response
  repeat' split
  all_goals first
    | rfl
    | exact resp_ecversion_kbtype s
    | exact resp_led_kbtype s
    | exact resp_fan_kbtype s
    | exact resp_temp_kbtype s
    | exact resp_batt_ctrl_kbtype s
    | exact resp_batt_info_kbtype s
    | exact resp_kblight_kbtype s
    | exact resp_smbios_write_kbtype s
    | exact resp_smbios_read_kbtype s

/-- A state whose out buffer is already empty is unchanged by clearing it. -/
lemma set_out_empty_eq (s : SimState) (h : s.out = []) :
    { s with out := ([] : List Nat) } = s := by
  cases s
  simp_all

lemma read_byte_pop (s : SimState) (b : Nat) (rest : List Nat) (h : s.out = b :: rest) :
    read_byte s = (some b, { s with out := rest }) := by
  simp only [read_byte]
  rw [if_neg (by simp [h]), h]

lemma read_byte_idle (s : SimState) (h : s.out = []) (hr : s.responded = true) :
    read_byte s = (none, s) := by
  simp only [read_byte]
  rw [if_neg (by simp [hr]), h]

lemma read_byte_gen (s : SimState) (h : s.out = []) (hr : s.responded = false) :
    read_byte s =
      (match (generate_response s).out with
       | [] => (none, { generate_response s with responded := true })
       | b :: rest => (some b, { generate_response s with responded := true, out := rest })) := by
  simp only [read_byte]
  rw [if_pos (by simp [h, hr])]

/-- Once the response is generated, the drain loop pops the whole buffer
and then ends with a per-read timeout. -/
lemma drainSim_pop (overall : ℚ) : ∀ (l : List Nat) (fuel : Nat) (s : SimState),
    s.responded = true → s.out = l → l.length < fuel → 0 ≤ overall →
    drainSim fuel 0 overall s = (l, true, { s with out := [] })
  | l, 0, s => by omega
  | [], fuel + 1, s => by
      intro hr ho _ hov
      unfold drainSim
      rw [if_neg (by simpa using hov), read_byte_idle s ho hr]
      rw [set_out_empty_eq s ho]
  | b :: rest, fuel + 1, s => by
      intro hr ho hf hov
      have hrec := drainSim_pop overall rest fuel { s with out := rest } (by simpa using hr) rfl
        (by simpa using Nat.lt_of_succ_lt_succ hf) hov
      unfold drainSim
      rw [if_neg (by simpa using hov), read_byte_pop s b rest ho]
      simp only [hrec]

/-- From a fresh transaction state, the drain loop of `txrx` collects the
entire generated response, ends with a per-read timeout, and leaves the
device output buffer empty. -/
lemma drainSim_full (s : SimState) (overall : ℚ) (fuel : Nat)
    (ho : s.out = []) (hr : s.responded = false)
    (hf : (generate_response s).out.length + 1 ≤ fuel) (hov : 0 ≤ overall) :
    drainSim fuel 0 overall s =
      ((generate_response s).out, true,
        { generate_response s with responded := true, out := [] }) := by
  rcases fuel with _ | fuel
  · omega
  unfold drainSim
  rw [if_neg (by simpa using hov), read_byte_gen s ho hr]
  rcases hg : (generate_response s).out with _ | ⟨b, rest⟩
  · simp only []
    have : { generate_response s with responded := true, out := ([] : List Nat) } =
        { generate_response s with responded := true } := by
      have := hg
      cases hgen : generate_response s
      rw [hgen] at hg
      simp at hg
      simp [hg]
    rw [this]
  · simp only []
    have := drainSim_pop overall rest fuel
      { generate_response s with responded := true, out := rest } rfl rfl
      (by rw [hg] at hf; simpa using hf) hov
    rw [this]

lemma foldl_write_data (data : List Nat) : ∀ s0 : SimState,
    data.foldl (fun st b => write_data b st) s0 =
      { s0 with data := s0.data ++ data.map (fun b => b % 256) } := by
  induction data with
  | nil =>
      intro s0
      simp
  | cons b rest ih =>
      intro s0
      rw [List.foldl_cons, ih (write_data b s0)]
      cases s0
      simp [write_data]

/-- The state after the write phase of `txrx` against the simulator. -/
lemma afterWrites_eq (cmd : Nat) (data : List Nat) (s : SimState) :
    afterWrites cmd data s =
      { s with current_cmd := some (cmd % 256), data := data.map (fun b => b % 256),
               out := [], responded := false } := by
  unfold afterWrites
  rw [foldl_write_data]
  rfl

/-- `txrx` against the simulator: the result is the reconciliation of the
full generated response with the timed-out flag set, and the final device
state has an empty output buffer. -/
lemma txrx_sim_eq (cmd : Nat) (data : List Nat) (expectLen : Option Nat)
    (overall : ℚ) (fuel : Nat) (s : SimState)
    (hf : (generate_response (afterWrites cmd data s)).out.length + 1 ≤ fuel)
    (hov : 0 ≤ overall) :
    txrx cmd data expectLen overall fuel s =
      (reconcile (generate_response (afterWrites cmd data s)).out true expectLen,
       { generate_response (afterWrites cmd data s) with responded := true, out := [] }) := by
  have hout : (afterWrites cmd data s).out = [] := by rw [afterWrites_eq]
  have hresp : (afterWrites cmd data s).responded = false := by rw [afterWrites_eq]
  have hdrain := drainSim_full (afterWrites cmd data s) overall fuel hout hresp hf hov
  unfold afterWrites at hdrain
  simp only [txrx]
  rw [hdrain]
  rfl

lemma drainGo_snd (overall : ℚ) : ∀ (trace : List ReadOutcome) (t : ℚ) (acc : List Nat),
    (drainGo overall trace t acc).2 = endsByReadTimeout overall trace t
  | [], t, acc => rfl
  | .byte b dt :: rest, t, acc => by
      unfold drainGo endsByReadTimeout
      split_ifs
      · rfl
      · exact drainGo_snd overall rest (t + dt) (acc ++ [b])
  | .timeout dt :: rest, t, acc => by
      unfold drainGo endsByReadTimeout
      split_ifs <;> rfl

/-- A minimal hand-built simulator state used to instantiate theorems with
hypotheses at concrete inputs. -/
def testState : SimState := {
  current_cmd := none, data := [], out := [], responded := false,
  version := "SimEC v1.0",
  led_power := false, led_charge := false,
  fan_mode := "auto", fan_duty := 128, fan_rpm := 2500,
  kb_backlight_on := false, kb_backlight_level := 0,
  kbtype := ⟨0, none, none, none⟩,
  batt_mode := "auto", batt_charging := false, batt_discharging := false,
  temps := [], batt_info := [(0x04, [0x88, 0x2C])],
  smbios_by_read := [], smbios_by_write := [], smbios_store := [],
  smbios_length_override := [] }

/- ------------------------------------------------------------------ -/
/- Claim theorems.                                                     -/
/- ------------------------------------------------------------------ -/

/-- C1: txrx length reconciliation.  Over every backend read trace, with
`expectLen = None` txrx returns every byte collected by the drain; with an
expected length it truncates an over-long response, fails a short response
when the expected length is positive, and otherwise returns exactly
`expectLen` bytes.  Against the simulator, queueing exactly `b` and asking
for `expectLen = len b` returns `b`. -/
theorem C1_txrx_length_reconciliation :
    (∀ (overall : ℚ) (trace : List ReadOutcome) (out : List Nat) (timedOut : Bool),
      drainGo overall trace 0 [] = (out, timedOut) →
        txrxTrace overall trace none = .ok out ∧
        (∀ n : Nat, n < out.length → txrxTrace overall trace (some n) = .ok (out.take n)) ∧
        (∀ n : Nat, out.length < n → 0 < n →
          ∃ msg, txrxTrace overall trace (some n) = .error msg) ∧
        (∀ n : Nat, out.length = n → txrxTrace overall trace (some n) = .ok out)) ∧
    (∀ (s : SimState) (cmd : Nat) (data b : List Nat) (overall : ℚ) (fuel : Nat),
      (generate_response (afterWrites cmd data s)).out = b →
      0 ≤ overall → b.length + 1 ≤ fuel →
      (txrx cmd data (some b.length) overall fuel s).1 = .ok b) := by
  constructor
  · intro overall trace out timedOut h
    simp only [txrxTrace]
    rw [h]
    refine ⟨rfl, ?_, ?_, ?_⟩
    · intro n hn
      simp only [reconcile]
      rw [if_neg (by omega)]
    · intro n hlt hpos
      have herr : reconcile out timedOut (some n) =
          .error ((if timedOut then "response timed out"
            else "response ended before expected length") ++ ": received "
            ++ toString out.length ++ " of " ++ toString n ++ " byte(s)") := by
        simp only [reconcile]
        rw [if_pos ⟨hlt, hpos⟩]
      exact ⟨_, herr⟩
    · intro n hn
      simp only [reconcile]
      rw [if_neg (by omega), ← hn, List.take_length]
  · intro s cmd data b overall fuel hb hov hf
    rw [txrx_sim_eq cmd data (some b.length) overall fuel s (by rw [hb]; exact hf) hov]
    rw [hb]
    simp only [reconcile]
    rw [if_neg (by omega), List.take_length]

/-- C1 witness: a concrete trace drained to a single byte, and the
simulator queueing the two battery-voltage bytes for command 0x31/0x04. -/
theorem C1_txrx_length_reconciliation_witness :
    txrxTrace 5 [ReadOutcome.byte 7 0, ReadOutcome.timeout 0] none = .ok [7] ∧
    (txrx 0x31 [0x04] (some 2) 5 3 testState).1 = .ok [0x88, 0x2C] := by
  constructor
  · exact (C1_txrx_length_reconciliation.1 5 [ReadOutcome.byte 7 0, ReadOutcome.timeout 0]
      [7] true (by norm_num [drainGo])).1
  · exact C1_txrx_length_reconciliation.2 testState 0x31 [0x04] [0x88, 0x2C] 5 3
      (by decide) (by norm_num) (by decide)

/-- C2: drain invariant.  If the simulator queues strictly more bytes than
`expectLen`, txrx returns exactly the first `expectLen` bytes and the
device output buffer is empty afterwards: nothing stays queued for the
next transaction. -/
theorem C2_drain_invariant (s : SimState) (cmd : Nat) (data b : List Nat) (n : Nat)
    (overall : ℚ) (fuel : Nat)
    (hb : (generate_response (afterWrites cmd data s)).out = b)
    (hn : n < b.length) (hov : 0 ≤ overall) (hf : b.length + 1 ≤ fuel) :
    (txrx cmd data (some n) overall fuel s).1 = .ok (b.take n) ∧
    (txrx cmd data (some n) overall fuel s).2.out = [] := by
  rw [txrx_sim_eq cmd data (some n) overall fuel s (by rw [hb]; exact hf) hov, hb]
  constructor
  · simp only [reconcile]
    rw [if_neg (by omega)]
  · rfl

/-- C2 witness: the simulator queues the two battery-voltage bytes, txrx
asks for one: it returns the first byte and leaves the queue empty. -/
theorem C2_drain_invariant_witness :
    (txrx 0x31 [0x04] (some 1) 5 3 testState).1 = .ok [0x88] ∧
    (txrx 0x31 [0x04] (some 1) 5 3 testState).2.out = [] :=
  C2_drain_invariant testState 0x31 [0x04] [0x88, 0x2C] 1 5 3
    (by decide) (by decide) (by norm_num) (by decide)

/-- C4: simulator single-shot transaction semantics.  write_command resets
the whole transaction context and stores the masked command byte; a
read_byte with a non-empty buffer pops without regenerating; with an
empty buffer and the responded flag set it times out leaving the state
unchanged (never regenerating); generation happens exactly on a read where
the buffer is empty and the responded flag unset, after which the flag is
set. -/
theorem C4_single_shot (s : SimState) :
    (∀ c, write_command c s =
      { s with current_cmd := some (c % 256), data := [], out := [], responded := false }) ∧
    (∀ b rest, s.out = b :: rest → read_byte s = (some b, { s with out := rest })) ∧
    (s.out = [] → s.responded = true → read_byte s = (none, s)) ∧
    (s.out = [] → s.responded = false → (generate_response s).out = [] →
      read_byte s = (none, { generate_response s with responded := true })) ∧
    (s.out = [] → s.responded = false → ∀ b rest, (generate_response s).out = b :: rest →
      read_byte s = (some b, { generate_response s with responded := true, out := rest })) := by
  refine ⟨fun c => rfl, fun b rest h => read_byte_pop s b rest h,
    fun h hr => read_byte_idle s h hr, ?_, ?_⟩
  · intro h hr hg
    rw [read_byte_gen s h hr, hg]
  · intro h hr b rest hg
    rw [read_byte_gen s h hr, hg]

/-- C4 witness: with an empty buffer and the responded flag already set,
read_byte times out and the state is unchanged. -/
theorem C4_single_shot_witness :
    read_byte { testState with responded := true } =
      (none, { testState with responded := true }) :=
  (C4_single_shot { testState with responded := true }).2.2.1 rfl rfl

/-- C5 counterexample: a drain that ends by a per-read timeout while the
overall deadline (1 s) is far from elapsed produces the message
"response timed out", not the "ended early" message that the claim
requires for exactly this case (and vice versa): the code's message
mapping is the opposite of the claimed one. -/
theorem C5_counterexample :
    txrxTrace 1 [ReadOutcome.timeout 0] (some 2) =
      .error "response timed out: received 0 of 2 byte(s)" ∧
    txrxTrace 1 [ReadOutcome.timeout 0] (some 2) ≠
      .error "response ended before expected length: received 0 of 2 byte(s)" := by
  have h1 : txrxTrace 1 [ReadOutcome.timeout 0] (some 2) =
      .error "response timed out: received 0 of 2 byte(s)" := rfl
  refine ⟨h1, ?_⟩
  rw [h1]
  simp

/-- C5 amended: whenever txrx raises the short-response error, the message
reports "response timed out" exactly when the drain loop terminated via a
per-read timeout (before the overall deadline), and "response ended before
expected length" exactly when the loop stopped because the overall timeout
had elapsed. -/
theorem C5_short_response_message (overall : ℚ) (trace : List ReadOutcome) (n : Nat)
    (hlt : (drainGo overall trace 0 []).1.length < n) (hpos : 0 < n) :
    txrxTrace overall trace (some n) =
      .error ((if endsByReadTimeout overall trace 0 then "response timed out"
        else "response ended before expected length") ++ ": received "
        ++ toString (drainGo overall trace 0 []).1.length ++ " of " ++ toString n
        ++ " byte(s)") := by
  have hsnd := drainGo_snd overall trace 0 []
  simp only [txrxTrace, reconcile]
  rw [if_pos ⟨hlt, hpos⟩, hsnd]

/-- C5 amended witness: a per-read-timeout drain reports "response timed
out". -/
theorem C5_short_response_message_witness :
    txrxTrace 1 [ReadOutcome.timeout 0] (some 1) =
      .error ((if endsByReadTimeout 1 [ReadOutcome.timeout 0] 0 then "response timed out"
        else "response ended before expected length") ++ ": received "
        ++ toString (drainGo 1 [ReadOutcome.timeout 0] 0 []).1.length ++ " of "
        ++ toString 1 ++ " byte(s)") :=
  C5_short_response_message 1 [ReadOutcome.timeout 0] 1
    (by simp [show drainGo 1 [ReadOutcome.timeout 0] 0 [] = ([], true) from rfl])
    (by decide)

/-- C6: the UUID segment swap is a hard error on any buffer that is not
exactly 16 bytes; on 16-byte buffers it succeeds, and applying it twice
returns the original bytes (involution). -/
theorem C6_uuid_swap_involution (l : List Nat) :
    (l.length ≠ 16 → ∃ e, swap_uuid_segments l = .error e) ∧
    (l.length = 16 → swap_uuid_segments l = .ok (swapSeg l) ∧
      swap_uuid_segments (swapSeg l) = .ok l) := by
  constructor
  · intro h
    exact ⟨_, by unfold swap_uuid_segments; rw [if_neg h]⟩
  · intro h
    constructor
    · unfold swap_uuid_segments
      rw [if_pos h]
    · unfold swap_uuid_segments
      rw [if_pos (swapSeg_length l h), swapSeg_swapSeg l h]

/-- C6 witness: a 1-byte buffer is rejected; the double swap of
`[0,…,15]` returns it unchanged. -/
theorem C6_uuid_swap_involution_witness :
    (∃ e, swap_uuid_segments [0] = .error e) ∧
    swap_uuid_segments (swapSeg (List.range 16)) = .ok (List.range 16) :=
  ⟨(C6_uuid_swap_involution [0]).1 (by decide),
   ((C6_uuid_swap_involution (List.range 16)).2 (by decide)).2⟩

/-- C9: simulator dispatch gaps.  For command bytes 0x50 (keyboard type)
and 0x62 (commit) no dispatch branch matches: the generated response is
empty and nothing but the output buffer changes; the keyboard-type handler
is never reached by dispatch (no command ever alters the kbtype
sub-state), although the handler itself exists and does mutate kbtype
when invoked directly. -/
theorem C9_dispatch_gaps :
    (∀ (s : SimState) (cmd : Nat), s.current_cmd = some cmd → cmd = 0x50 ∨ cmd = 0x62 →
      generate_response s = { s with out := [] }) ∧
    (∀ s : SimState, (generate_response s).kbtype = s.kbtype) ∧
    (∃ s t : SimState, resp_kbtype s = some t ∧ t.kbtype ≠ s.kbtype) := by
  refine ⟨?_, generate_response_kbtype, ?_⟩
  · intro s cmd hc hor
    unfold generate_response
    rw [hc]
    rcases hor with rfl | rfl <;> rfl
  · refine ⟨{ testState with data := [1, 2] }, _, rfl, by decide⟩

/-- C9 witness: with command byte 0x50 stored, response generation clears
the output buffer and changes nothing else. -/
theorem C9_dispatch_gaps_witness :
    generate_response { testState with current_cmd := some 0x50, data := [1] } =
      { testState with current_cmd := some 0x50, data := [1], out := [] } :=
  C9_dispatch_gaps.1 { testState with current_cmd := some 0x50, data := [1] } 0x50
    rfl (Or.inl rfl)

/-- C3: codec round-trip law.  For every field descriptor in the catalog
and every value the encoder accepts, decoding the encoded bytes returns the
encoder's normalized (printable) form: the canonical UUID text, the
upper-case colon-separated MAC, the bare digit string for BCD dates, the
space-separated 0xHH tokens for hex — and for ASCII fields (values without
an embedded NUL that fit the field) the value itself. -/
theorem C3_codec_round_trip :
    ∀ field ∈ FIELDS.map Prod.snd, ∀ (v : String) (bs : List Nat) (printable : String),
      encode_field field v = .ok (bs, printable) →
      (field.encoding = "ascii" → ∀ c ∈ v.data, c.toNat ≠ 0) →
      decode_field field bs = .ok printable ∧
      (field.encoding = "ascii" → printable = v) := by
  intro field hf v bs p henc hnul
  have hcases : field.encoding = "ascii" ∨ field.encoding = "uuid" ∨ field.encoding = "mac" ∨
      field.encoding = "bcd_date" ∨ field.encoding = "hex" := by
    have hall : ∀ f ∈ FIELDS.map Prod.snd, f.encoding = "ascii" ∨ f.encoding = "uuid" ∨
        f.encoding = "mac" ∨ f.encoding = "bcd_date" ∨ f.encoding = "hex" := by decide
    exact hall field hf
  rcases hcases with h | h | h | h | h
  · obtain ⟨hd, hp⟩ := round_trip_ascii field h v bs p henc (hnul h)
    exact ⟨hd, fun _ => hp⟩
  · exact ⟨round_trip_uuid field h v bs p henc,
      fun ha => by rw [ha] at h; exact absurd h (by decide)⟩
  · exact ⟨round_trip_mac field h v bs p henc,
      fun ha => by rw [ha] at h; exact absurd h (by decide)⟩
  · exact ⟨round_trip_bcd field h v bs p henc,
      fun ha => by rw [ha] at h; exact absurd h (by decide)⟩
  · exact ⟨round_trip_hex field h v bs p henc,
      fun ha => by rw [ha] at h; exact absurd h (by decide)⟩

/-- C3 witness: the catalog MAC field round-trips its normalized form. -/
theorem C3_codec_round_trip_witness :
    decode_field ⟨"MAC Address", 6, 0x60, 0x13, 0x61, 0x13, "mac"⟩
      [0xAA, 0xBB, 0xCC, 0xDD, 0xEE, 0xFF] = .ok "AA:BB:CC:DD:EE:FF" :=
  (C3_codec_round_trip ⟨"MAC Address", 6, 0x60, 0x13, 0x61, 0x13, "mac"⟩ (by decide)
    "AA:BB:CC:DD:EE:FF" [0xAA, 0xBB, 0xCC, 0xDD, 0xEE, 0xFF] "AA:BB:CC:DD:EE:FF"
    rfl (fun h => absurd h (by decide))).1

lemma bcdUnpack_err : ∀ data : List Nat, (∃ b ∈ data, 9 < b / 16 % 16 ∨ 9 < b % 16) →
    ∃ e, bcdUnpack data = .error e
  | [], h => by simp at h
  | b :: rest, h => by
      unfold bcdUnpack
      by_cases hb : 9 < b / 16 % 16 ∨ 9 < b % 16
      · rw [if_pos hb]
        exact ⟨_, rfl⟩
      · rw [if_neg hb]
        have hrest : ∃ x ∈ rest, 9 < x / 16 % 16 ∨ 9 < x % 16 := by
          rcases h with ⟨x, hx, hp⟩
          rcases List.mem_cons.mp hx with rfl | hx'
          · exact absurd hp hb
          · exact ⟨x, hx', hp⟩
        obtain ⟨e, he⟩ := bcdUnpack_err rest hrest
        rw [he]
        exact ⟨e, rfl⟩

lemma bcdUnpack_ok : ∀ data : List Nat, (∀ b ∈ data, b / 16 % 16 ≤ 9 ∧ b % 16 ≤ 9) →
    bcdUnpack data = .ok (data.flatMap fun b =>
      [Char.ofNat (48 + b / 16 % 16), Char.ofNat (48 + b % 16)])
  | [], _ => rfl
  | b :: rest, h => by
      unfold bcdUnpack
      obtain ⟨h1, h2⟩ := h b (by simp)
      rw [if_neg (by omega), bcdUnpack_ok rest (fun x hx => h x (by simp [hx]))]
      simp [List.flatMap_cons]

/-- C7 counterexample: the claim says BCD-date encoding rejects any input
containing non-digit characters, but the encoder filters non-digits out:
"2024-03-15" contains '-', is not a digit, and still encodes
successfully (to the packed digits with printable "20240315"); the field
is the catalog's battery_first_use_date. -/
theorem C7_counterexample :
    (⟨"Battery First Use Date", 4, 0x60, 0x1B, 0x61, 0x1B, "bcd_date"⟩ : FieldDef) ∈
      FIELDS.map Prod.snd ∧
    ('-' ∈ "2024-03-15".data ∧ isDigitChar '-' = false) ∧
    encode_field ⟨"Battery First Use Date", 4, 0x60, 0x1B, 0x61, 0x1B, "bcd_date"⟩
      "2024-03-15" = .ok ([0x20, 0x24, 0x03, 0x15], "20240315") := by
  refine ⟨by decide, ⟨by decide, by decide⟩, rfl⟩

/-- C7 amended: BCD-date encode filters out non-digit characters (rather
than rejecting them) and rejects exactly the inputs whose decimal digit
count differs from 2 × length, packing digit pairs as (high nibble, low
nibble) otherwise; decode rejects any buffer containing a byte with a
nibble above 9 and otherwise reverses the packing into the digit string. -/
theorem C7_bcd_validation (field : FieldDef) (hf : field.encoding = "bcd_date")
    (v : String) (data : List Nat) :
    ((v.data.filter isDigitChar).length ≠ field.length * 2 →
      ∃ e, encode_field field v = .error e) ∧
    ((v.data.filter isDigitChar).length = field.length * 2 →
      encode_field field v = .ok
        (bcdPack ((v.data.filter isDigitChar).map (fun c => c.toNat - 48)),
         String.mk (v.data.filter isDigitChar))) ∧
    ((∃ b ∈ data, 9 < b / 16 % 16 ∨ 9 < b % 16) → ∃ e, decode_field field data = .error e) ∧
    ((∀ b ∈ data, b / 16 % 16 ≤ 9 ∧ b % 16 ≤ 9) →
      decode_field field data = .ok (String.mk (data.flatMap fun b =>
        [Char.ofNat (48 + b / 16 % 16), Char.ofNat (48 + b % 16)]))) := by
  refine ⟨?_, ?_, ?_, ?_⟩
  · intro hne
    unfold encode_field
    rw [hf]
    simp only [reduceIte, String.reduceEq]
    rw [if_pos hne]
    exact ⟨_, rfl⟩
  · intro heq
    unfold encode_field
    rw [hf]
    simp only [reduceIte, String.reduceEq]
    rw [if_neg (by omega)]
  · intro hbad
    unfold decode_field
    rw [hf]
    simp only [reduceIte, String.reduceEq]
    obtain ⟨e, he⟩ := bcdUnpack_err data hbad
    rw [he]
    exact ⟨e, rfl⟩
  · intro hgood
    unfold decode_field
    rw [hf]
    simp only [reduceIte, String.reduceEq]
    rw [bcdUnpack_ok data hgood]

/-- C7 amended witness: digit-count mismatch is rejected; a valid 8-digit
input (with separators filtered) packs as claimed; a bad nibble is
rejected on decode. -/
theorem C7_bcd_validation_witness :
    (∃ e, encode_field ⟨"Battery First Use Date", 4, 0x60, 0x1B, 0x61, 0x1B, "bcd_date"⟩
      "123" = .error e) ∧
    (∃ e, decode_field ⟨"Battery First Use Date", 4, 0x60, 0x1B, 0x61, 0x1B, "bcd_date"⟩
      [0xAB] = .error e) := by
  constructor
  · exact (C7_bcd_validation _ rfl "123" []).1 (by decide)
  · exact (C7_bcd_validation _ rfl "" [0xAB]).2.2.1 (by decide)

/-- C8: configuration-field length override.  An override with a
non-positive length is rejected; a successful override with length L
immediately replaces the stored buffer for that sub-id with exactly the
old buffer zero-padded to L bytes (when it was not longer) or its first L
bytes (when it was longer), and records L in the override map; and in any
state where the override map binds a catalog field's read sub-id to L', a
simulator read of that field generates exactly L' response bytes,
regardless of the catalog default length. -/
theorem C8_length_override (s : SimState) (sub : Nat) (L : Int) :
    (L ≤ 0 → ∃ e, override_smbios_field_length sub L s = .error e) ∧
    (∀ s', override_smbios_field_length sub L s = .ok s' →
      (∃ buf, dictGet sub s'.smbios_store = some buf ∧ buf.length = L.toNat ∧
        (((dictGet sub s.smbios_store).getD []).length ≤ L.toNat →
          buf = ((dictGet sub s.smbios_store).getD []) ++
            List.replicate (L.toNat - ((dictGet sub s.smbios_store).getD []).length) 0) ∧
        (L.toNat < ((dictGet sub s.smbios_store).getD []).length →
          buf = ((dictGet sub s.smbios_store).getD []).take L.toNat)) ∧
      dictGet sub s'.smbios_length_override = some L.toNat) ∧
    (∀ (field : FieldDef) (L' : Nat) (rest : List Nat),
      dictGet sub s.smbios_by_read = some field → field.read_sub = sub →
      dictGet sub s.smbios_length_override = some L' → s.data = sub :: rest →
      (resp_smbios_read s).out.length = L') := by
  refine ⟨?_, ?_, ?_⟩
  · intro hle
    unfold override_smbios_field_length
    rw [if_pos hle]
    exact ⟨_, rfl⟩
  · intro s' h
    unfold override_smbios_field_length at h
    split_ifs at h with hle
    simp only [Except.ok.injEq] at h
    subst h
    refine ⟨⟨_, dictGet_dictSet_self _ _ _, ?_, ?_, ?_⟩, dictGet_dictSet_self _ _ _⟩
    · split_ifs with h1 h2 <;> (try simp) <;> omega
    · intro hpad
      by_cases h1 : ((dictGet sub s.smbios_store).getD []).length < L.toNat
      · rw [if_pos h1]
      · rw [if_neg h1, if_neg (by omega)]
        have h0 : L.toNat - ((dictGet sub s.smbios_store).getD []).length = 0 := by omega
        simp [h0]
    · intro hcut
      rw [if_neg (by omega), if_pos hcut]
  · intro field L' rest hfield hcons hov hdata
    have heff : effective_length s field = L' := by
      unfold effective_length
      rw [hcons, hov]
      rfl
    unfold resp_smbios_read
    rw [hdata]
    repeat' split
    all_goals try simp_all
    split_ifs <;> (try simp) <;> omega

/-- C8 witness: overriding with 0 is rejected; overriding the MAC read
sub-id to 4 bytes leaves a 4-byte stored buffer that is the old (empty)
buffer zero-padded; a read of a field whose override is 4 yields 4 bytes
although the catalog length is 6. -/
theorem C8_length_override_witness :
    (∃ e, override_smbios_field_length 0x13 0 testState = .error e) ∧
    (∃ buf, dictGet 0x13 ({ testState with
        smbios_length_override := [(0x13, 4)],
        smbios_store := [(0x13, [0, 0, 0, 0])] } : SimState).smbios_store = some buf ∧
      buf.length = (4 : Int).toNat ∧
      (((dictGet 0x13 testState.smbios_store).getD []).length ≤ (4 : Int).toNat →
        buf = ((dictGet 0x13 testState.smbios_store).getD []) ++
          List.replicate ((4 : Int).toNat -
            ((dictGet 0x13 testState.smbios_store).getD []).length) 0) ∧
      ((4 : Int).toNat < ((dictGet 0x13 testState.smbios_store).getD []).length →
        buf = ((dictGet 0x13 testState.smbios_store).getD []).take (4 : Int).toNat)) ∧
    (resp_smbios_read { testState with
        smbios_by_read := [(0x13, ⟨"MAC Address", 6, 0x60, 0x13, 0x61, 0x13, "mac"⟩)],
        smbios_length_override := [(0x13, 4)],
        data := [0x13] }).out.length = 4 := by
  refine ⟨(C8_length_override testState 0x13 0).1 (by norm_num), ?_, ?_⟩
  · exact ((C8_length_override testState 0x13 4).2.1 ({ testState with
      smbios_length_override := [(0x13, 4)],
      smbios_store := [(0x13, [0, 0, 0, 0])] } : SimState) (by rfl)).1
  · exact (C8_length_override { testState with
        smbios_by_read := [(0x13, ⟨"MAC Address", 6, 0x60, 0x13, 0x61, 0x13, "mac"⟩)],
        smbios_length_override := [(0x13, 4)],
        data := [0x13] } 0x13 4).2.2 ⟨"MAC Address", 6, 0x60, 0x13, 0x61, 0x13, "mac"⟩ 4 []
      (by decide) rfl (by decide) rfl

lemma parse_bytes_string_length (v : List Char) (L : Nat) (bs : List Nat)
    (h : parse_bytes_string v L = .ok bs) : bs.length = L := by
  simp only [parse_bytes_string] at h
  split_ifs at h with h1 h2
  have := parseTokens_length _ _ h
  omega

lemma encode_field_ok_length (f : FieldDef) (v : String) (bs : List Nat) (p : String)
    (h : encode_field f v = .ok (bs, p)) (hu : f.encoding = "uuid" → f.length = 16) :
    bs.length = f.length := by
  by_cases ha : f.encoding = "ascii"
  · unfold encode_field at h
    rw [ha] at h
    simp only [reduceIte] at h
    split_ifs at h with h1 h2
    simp only [Except.ok.injEq, Prod.mk.injEq] at h
    obtain ⟨hbs, _⟩ := h
    subst hbs
    simp only [List.length_append, List.length_replicate, List.length_map] at h2 ⊢
    omega
  by_cases hb : f.encoding = "uuid"
  · unfold encode_field at h
    rw [hb] at h
    simp only [reduceIte, String.reduceEq] at h
    rcases hp : parseUuidBytes v.data with e | parsed <;> rw [hp] at h
    · simp at h
    · have hlen := parseUuidBytes_length _ _ hp
      simp only [swap_uuid_segments, hlen, reduceIte] at h
      simp only [Except.ok.injEq, Prod.mk.injEq] at h
      obtain ⟨hbs, _⟩ := h
      subst hbs
      rw [swapSeg_length parsed hlen, hu hb]
  by_cases hc : f.encoding = "mac"
  · unfold encode_field at h
    rw [hc] at h
    simp only [reduceIte, String.reduceEq] at h
    rcases hp : parse_bytes_string v.data f.length with e | raw <;> rw [hp] at h
    · simp at h
    · simp only [Except.ok.injEq, Prod.mk.injEq] at h
      obtain ⟨hbs, _⟩ := h
      subst hbs
      exact parse_bytes_string_length _ _ _ hp
  by_cases hd : f.encoding = "bcd_date"
  · unfold encode_field at h
    rw [hd] at h
    simp only [reduceIte, String.reduceEq] at h
    split_ifs at h with hcnt
    simp only [Except.ok.injEq, Prod.mk.injEq] at h
    obtain ⟨hbs, _⟩ := h
    subst hbs
    rw [bcdPack_length]
    simp only [List.length_map]
    omega
  by_cases he : f.encoding = "hex"
  · unfold encode_field at h
    rw [he] at h
    simp only [reduceIte, String.reduceEq] at h
    rcases hp : parse_bytes_string v.data f.length with e | raw <;> rw [hp] at h
    · simp at h
    · simp only [Except.ok.injEq, Prod.mk.injEq] at h
      obtain ⟨hbs, _⟩ := h
      subst hbs
      exact parse_bytes_string_length _ _ _ hp
  · unfold encode_field at h
    rw [if_neg ha, if_neg hb, if_neg hc, if_neg hd, if_neg he] at h
    simp at h

lemma make_smbios_payload_length (f : FieldDef) (t : Option String)
    (hu : f.encoding = "uuid" → f.length = 16) :
    (make_smbios_payload f t).length = f.length := by
  unfold make_smbios_payload
  repeat' split
  · simp
  · rename_i t ex pr heq
    exact encode_field_ok_length f t pr.1 pr.2 (by rw [heq]) hu
  · simp

lemma initFold_storeInv : ∀ (flds : List (String × FieldDef)) (br bw : List (Nat × FieldDef))
    (st : List (Nat × List Nat)),
    (∀ p ∈ flds, p.2.encoding = "uuid" → p.2.length = 16) →
    (∀ sub f, dictGet sub br = some f → ∃ buf, dictGet sub st = some buf ∧ buf.length = f.length) →
    ∀ sub f, dictGet sub (initFold flds br bw st).1 = some f →
      ∃ buf, dictGet sub (initFold flds br bw st).2.2 = some buf ∧ buf.length = f.length
  | [], br, bw, st => fun _ hinv => hinv
  | (key, g) :: rest, br, bw, st => by
      intro hu hinv
      apply initFold_storeInv rest _ _ _ (fun p hp => hu p (by simp [hp]))
      intro sub f hf
      by_cases hsub : sub = g.read_sub
      · subst hsub
        rw [dictGet_dictSet_self] at hf
        simp only [Option.some.injEq] at hf
        subst hf
        exact ⟨_, dictGet_dictSet_self _ _ _,
          make_smbios_payload_length g _ (hu (key, g) (by simp))⟩
      · rw [dictGet_dictSet_ne hsub] at hf
        obtain ⟨buf, hbuf, hl⟩ := hinv sub f hf
        exact ⟨buf, by rw [dictGet_dictSet_ne hsub]; exact hbuf, hl⟩

/-- C10's stored-field length invariant: every buffer in the store whose
sub-id names a catalog field has exactly the field's effective length. -/
def storeInv (s : SimState) : Prop :=
  ∀ sub field, dictGet sub s.smbios_by_read = some field →
    ∃ buf, dictGet sub s.smbios_store = some buf ∧ buf.length = effective_length s field

/-- The full induction invariant: the two dispatch maps never change after
construction, and the store satisfies the length invariant. -/
def simInv (s : SimState) : Prop :=
  s.smbios_by_read = initState.smbios_by_read ∧
  s.smbios_by_write = initState.smbios_by_write ∧ storeInv s

lemma byRead_consistent (sub : Nat) (f : FieldDef)
    (h : dictGet sub initState.smbios_by_read = some f) : f.read_sub = sub := by
  have hall : ∀ p ∈ initState.smbios_by_read, p.2.read_sub = p.1 := by decide
  exact hall (sub, f) (dictGet_mem h)

lemma byWrite_to_byRead (sub : Nat) (f : FieldDef)
    (h : dictGet sub initState.smbios_by_write = some f) :
    dictGet f.read_sub initState.smbios_by_read = some f := by
  have hall : ∀ p ∈ initState.smbios_by_write,
      dictGet p.2.read_sub initState.smbios_by_read = some p.2 := by decide
  exact hall (sub, f) (dictGet_mem h)

lemma storeInv_init : storeInv initState := by
  intro sub f hf
  obtain ⟨buf, hbuf, hl⟩ := initFold_storeInv FIELDS [] [] [] (by decide)
    (by intro sub f h; simp [dictGet] at h) sub f hf
  exact ⟨buf, hbuf, hl⟩

lemma storeInv_of_untouched {a b : SimState} (h : smbiosUntouched a b) (hinv : storeInv b) :
    storeInv a := by
  intro sub f hf
  obtain ⟨h1, h2, h3, h4⟩ := h
  rw [h1] at hf
  obtain ⟨buf, hbuf, hl⟩ := hinv sub f hf
  refine ⟨buf, by rw [h3]; exact hbuf, ?_⟩
  rw [hl]
  unfold effective_length
  rw [h4]

lemma simInv_of_untouched {a b : SimState} (h : smbiosUntouched a b) (hinv : simInv b) :
    simInv a :=
  ⟨h.1.trans hinv.1, h.2.1.trans hinv.2.1, storeInv_of_untouched h hinv.2.2⟩

lemma coerce3_length (p : List Nat) (L : Nat) :
    (if p.length < L then p ++ List.replicate (L - p.length) 0
     else if L < p.length then p.take L else p).length = L := by
  split_ifs <;> (try simp) <;> omega

lemma padcut_length (p : List Nat) (L : Nat) :
    ((if L < (if p.length < L then p ++ List.replicate (L - p.length) 0 else p).length
       then (if p.length < L then p ++ List.replicate (L - p.length) 0 else p).take L
       else (if p.length < L then p ++ List.replicate (L - p.length) 0 else p)).map
      (fun b => b % 256)).length = L := by
  split_ifs <;> (try simp) <;> omega

lemma padcut_pad (p : List Nat) (L : Nat) (h : p.length ≤ L) :
    (if L < (if p.length < L then p ++ List.replicate (L - p.length) 0 else p).length
      then (if p.length < L then p ++ List.replicate (L - p.length) 0 else p).take L
      else (if p.length < L then p ++ List.replicate (L - p.length) 0 else p)) =
    p ++ List.replicate (L - p.length) 0 := by
  by_cases h1 : p.length < L
  · rw [if_pos h1, if_neg (by simp; omega)]
  · rw [if_neg h1, if_neg (by omega)]
    have h0 : L - p.length = 0 := by omega
    simp [h0]

lemma padcut_cut (p : List Nat) (L : Nat) (h : L < p.length) :
    (if L < (if p.length < L then p ++ List.replicate (L - p.length) 0 else p).length
      then (if p.length < L then p ++ List.replicate (L - p.length) 0 else p).take L
      else (if p.length < L then p ++ List.replicate (L - p.length) 0 else p)) =
    p.take L := by
  have h1 : ¬(p.length < L) := by omega
  rw [if_neg h1, if_pos h]

lemma resp_smbios_write_inv (s : SimState) (hinv : simInv s) : simInv (resp_smbios_write s) := by
  obtain ⟨hbr, hbw, hstore⟩ := hinv
  unfold resp_smbios_write
  repeat' split
  all_goals try exact simInv_of_untouched ⟨rfl, rfl, rfl, rfl⟩ ⟨hbr, hbw, hstore⟩
  rename_i xd sub payload heqd xo field heqw
  refine ⟨hbr, hbw, ?_⟩
  intro sub' f' hf'
  have hf2 : dictGet sub' s.smbios_by_read = some f' := hf'
  have hwinit : dictGet sub initState.smbios_by_write = some field := by
    rw [← hbw]
    exact heqw
  have hrr := byWrite_to_byRead sub field hwinit
  by_cases hs : sub' = field.read_sub
  · subst hs
    have hff : f' = field := by
      have hx : dictGet field.read_sub initState.smbios_by_read = some f' := by
        rw [← hbr]
        exact hf2
      rw [hrr] at hx
      simp at hx
      exact hx.symm
    subst hff
    exact ⟨_, dictGet_dictSet_self _ _ _, padcut_length payload (effective_length s f')⟩
  · obtain ⟨buf, hbuf, hl⟩ := hstore sub' f' hf2
    exact ⟨buf, (dictGet_dictSet_ne hs _ _).trans hbuf, hl⟩

lemma resp_smbios_read_inv (s : SimState) (hinv : simInv s) : simInv (resp_smbios_read s) := by
  obtain ⟨hbr, hbw, hstore⟩ := hinv
  unfold resp_smbios_read
  repeat' split
  all_goals try exact simInv_of_untouched ⟨rfl, rfl, rfl, rfl⟩ ⟨hbr, hbw, hstore⟩
  rename_i xd sub rest heqd xr field heqr xs heqst
  exfalso
  obtain ⟨buf, hbuf, _⟩ := hstore sub field heqr
  rw [heqst] at hbuf
  simp at hbuf

lemma override_inv (sub : Nat) (L : Int) (s s' : SimState)
    (h : override_smbios_field_length sub L s = .ok s') (hinv : simInv s) : simInv s' := by
  unfold override_smbios_field_length at h
  split_ifs at h with hle
  simp only [Except.ok.injEq] at h
  subst h
  obtain ⟨hbr, hbw, hstore⟩ := hinv
  refine ⟨hbr, hbw, ?_⟩
  intro sub' f' hf'
  have hf2 : dictGet sub' s.smbios_by_read = some f' := hf'
  have hcons : f'.read_sub = sub' := byRead_consistent sub' f' (by rw [← hbr]; exact hf2)
  by_cases hs : sub' = sub
  · subst hs
    refine ⟨_, dictGet_dictSet_self _ _ _, ?_⟩
    have heff : effective_length { s with
        smbios_length_override := dictSet sub' L.toNat s.smbios_length_override,
        smbios_store := dictSet sub' (if ((dictGet sub' s.smbios_store).getD []).length < L.toNat
          then (dictGet sub' s.smbios_store).getD [] ++
            List.replicate (L.toNat - ((dictGet sub' s.smbios_store).getD []).length) 0
          else if L.toNat < ((dictGet sub' s.smbios_store).getD []).length
            then ((dictGet sub' s.smbios_store).getD []).take L.toNat
            else (dictGet sub' s.smbios_store).getD []) s.smbios_store } f' = L.toNat := by
      unfold effective_length
      rw [hcons]
      show (dictGet sub' (dictSet sub' L.toNat s.smbios_length_override)).getD f'.length = L.toNat
      rw [dictGet_dictSet_self]
      rfl
    rw [heff]
    exact coerce3_length _ _
  · obtain ⟨buf, hbuf, hl⟩ := hstore sub' f' hf2
    refine ⟨buf, (dictGet_dictSet_ne hs _ _).trans hbuf, ?_⟩
    rw [hl]
    show effective_length s f' = (dictGet f'.read_sub (dictSet sub L.toNat
      s.smbios_length_override)).getD f'.length
    unfold effective_length
    rw [hcons, dictGet_dictSet_ne hs]

lemma generate_response_inv (s : SimState) (hinv : simInv s) : simInv (generate_response s) := by
  unfold generate_response
  repeat' split
  all_goals first
    | exact hinv
    | exact simInv_of_untouched (resp_ecversion_smbios s) hinv
    | exact simInv_of_untouched (resp_led_smbios s) hinv
    | exact simInv_of_untouched (resp_fan_smbios s) hinv
    | exact simInv_of_untouched (resp_temp_smbios s) hinv
    | exact simInv_of_untouched (resp_batt_ctrl_smbios s) hinv
    | exact simInv_of_untouched (resp_batt_info_smbios s) hinv
    | exact simInv_of_untouched (resp_kblight_smbios s) hinv
    | exact resp_smbios_write_inv s hinv
    | exact resp_smbios_read_inv s hinv

lemma read_byte_inv (s : SimState) (hinv : simInv s) : simInv (read_byte s).2 := by
  by_cases hco : s.out = [] ∧ s.responded = false
  · have hg := generate_response_inv s hinv
    rw [read_byte_gen s hco.1 hco.2]
    rcases (generate_response s).out with _ | ⟨b, rest⟩
    · exact simInv_of_untouched ⟨rfl, rfl, rfl, rfl⟩ hg
    · exact simInv_of_untouched ⟨rfl, rfl, rfl, rfl⟩ hg
  · rcases ho : s.out with _ | ⟨b, rest⟩
    · have hr : s.responded = true := by
        cases hsr : s.responded
        · exact absurd ⟨ho, hsr⟩ hco
        · rfl
      rw [read_byte_idle s ho hr]
      exact hinv
    · rw [read_byte_pop s b rest ho]
      exact simInv_of_untouched ⟨rfl, rfl, rfl, rfl⟩ hinv

lemma reachable_inv : ∀ s, Reachable s → simInv s := by
  intro s h
  induction h with
  | init => exact ⟨rfl, rfl, storeInv_init⟩
  | wc c h ih => exact simInv_of_untouched ⟨rfl, rfl, rfl, rfl⟩ ih
  | wd b h ih => exact simInv_of_untouched ⟨rfl, rfl, rfl, rfl⟩ ih
  | rb h ih => exact read_byte_inv _ ih
  | ov sub L h hok ih => exact override_inv sub L _ _ hok ih

/-- C10: stored-field length invariant with silent write coercion.  In
every reachable simulator state, every stored buffer keyed by a catalog
field's read sub-id has exactly the field's effective length (the override
length if one is set, else the catalog length); and a configuration-field
write stores its payload silently zero-padded (when shorter) or truncated
(when longer) to the effective length — it is never rejected. -/
theorem C10_store_length_invariant :
    (∀ s, Reachable s → storeInv s) ∧
    (∀ (s : SimState) (sub : Nat) (payload : List Nat) (field : FieldDef),
      dictGet sub s.smbios_by_write = some field → s.data = sub :: payload →
      ∃ buf, dictGet field.read_sub (resp_smbios_write s).smbios_store = some buf ∧
        buf.length = effective_length s field ∧
        (payload.length ≤ effective_length s field →
          buf = (payload ++ List.replicate (effective_length s field - payload.length) 0).map
            (fun b => b % 256)) ∧
        (effective_length s field < payload.length →
          buf = (payload.take (effective_length s field)).map (fun b => b % 256))) := by
  constructor
  · exact fun s h => (reachable_inv s h).2.2
  · intro s sub payload field hw hdata
    unfold resp_smbios_write
    rw [hdata]
    repeat' split
    all_goals try simp_all
    refine ⟨_, dictGet_dictSet_self _ _ _, padcut_length _ _, ?_, ?_⟩
    · intro hle
      rw [padcut_pad _ _ hle]
      simp
    · intro hgt
      rw [padcut_cut _ _ hgt]
      simp

/-- C10 witness: the invariant instantiated at the freshly constructed
simulator, and a concrete under-length write that is zero-padded. -/
theorem C10_store_length_invariant_witness :
    storeInv initState ∧
    (∃ buf, dictGet 0x13 (resp_smbios_write { testState with
        smbios_by_write := [(0x13, ⟨"MAC Address", 6, 0x60, 0x13, 0x61, 0x13, "mac"⟩)],
        data := [0x13, 0x01, 0x02] }).smbios_store = some buf ∧
      buf.length = effective_length { testState with
        smbios_by_write := [(0x13, ⟨"MAC Address", 6, 0x60, 0x13, 0x61, 0x13, "mac"⟩)],
        data := [0x13, 0x01, 0x02] } ⟨"MAC Address", 6, 0x60, 0x13, 0x61, 0x13, "mac"⟩ ∧
      ([0x01, 0x02].length ≤ effective_length { testState with
          smbios_by_write := [(0x13, ⟨"MAC Address", 6, 0x60, 0x13, 0x61, 0x13, "mac"⟩)],
          data := [0x13, 0x01, 0x02] } ⟨"MAC Address", 6, 0x60, 0x13, 0x61, 0x13, "mac"⟩ →
        buf = ([0x01, 0x02] ++ List.replicate (effective_length { testState with
          smbios_by_write := [(0x13, ⟨"MAC Address", 6, 0x60, 0x13, 0x61, 0x13, "mac"⟩)],
          data := [0x13, 0x01, 0x02] } ⟨"MAC Address", 6, 0x60, 0x13, 0x61, 0x13, "mac"⟩ -
            [0x01, 0x02].length) 0).map (fun b => b % 256)) ∧
      (effective_length { testState with
          smbios_by_write := [(0x13, ⟨"MAC Address", 6, 0x60, 0x13, 0x61, 0x13, "mac"⟩)],
          data := [0x13, 0x01, 0x02] } ⟨"MAC Address", 6, 0x60, 0x13, 0x61, 0x13, "mac"⟩ <
          [0x01, 0x02].length →
        buf = ([0x01, 0x02].take (effective_length { testState with
          smbios_by_write := [(0x13, ⟨"MAC Address", 6, 0x60, 0x13, 0x61, 0x13, "mac"⟩)],
          data := [0x13, 0x01, 0x02] } ⟨"MAC Address", 6, 0x60, 0x13, 0x61, 0x13, "mac"⟩)).map
          (fun b => b % 256))) :=
  ⟨(C10_store_length_invariant.1 initState Reachable.init : storeInv initState),
   C10_store_length_invariant.2 { testState with
      smbios_by_write := [(0x13, ⟨"MAC Address", 6, 0x60, 0x13, 0x61, 0x13, "mac"⟩)],
      data := [0x13, 0x01, 0x02] } 0x13 [0x01, 0x02]
      ⟨"MAC Address", 6, 0x60, 0x13, 0x61, 0x13, "mac"⟩ (by decide) rfl⟩

end DET
